import Mathlib

/-!
# Verification of the inventory/sale transaction core of `src/main.py`

Shallow embedding of the database layer of the retail-management program:
the two tables `products` and `sales` become lists of records inside a `DB`
state, and each data-access function of `main.py` (`add_product`,
`delete_product`, `get_all_products`, `update_product_quantity`,
`process_sale`, `get_all_sales`) becomes a pure Lean function on `DB`.

Modelling decisions, each tied to the source:

* `id INTEGER PRIMARY KEY AUTOINCREMENT` on both tables is modelled by the
  `nextProductId` / `nextSaleId` counters of `DB`: an insert stores the
  current counter as the row id and increments it.
* `price REAL` and `total_price REAL` are modelled as `Rat` (exact
  arithmetic on the decimal inputs the shell accepts); `quantity INTEGER`
  and `quantity_sold INTEGER` as `Int` (SQLite integers are signed and the
  store layer performs no sign checks).
* `DATE("now")` in `process_sale` is an environment input, so the model
  takes the current date as an explicit argument.  SQLite stores it as the
  TEXT `YYYY-MM-DD`, whose lexicographic order coincides with chronological
  order; the model uses `Nat` with its order for the date so that the
  comparison stays computable.
* `add_product` returns exactly what the Python function returns: a
  success flag and a message string (`INSERT` hitting the `UNIQUE` name
  constraint raises `sqlite3.IntegrityError`, mapped to
  `(False, "Product name already exists!")`).
* `process_sale` returns the typed outcome `SaleResult`: `.notFound` for
  `(False, 'Product not found.')`, `.insufficientStock` for
  `(False, 'Insufficient stock.')`, and `.ok total` for
  `(True, 'Sale processed! Total: $...')` where the message embeds the
  computed total.
* `get_all_sales` performs the inner join
  `sales JOIN products ON s.product_id = p.id` and then
  `ORDER BY s.date DESC`; the model joins by lookup and sorts by the
  date descending.  SQLite only guarantees the resulting order up to
  ties, which is all the theorems below use.
-/

/-- A row of the `products` table:
`id INTEGER PRIMARY KEY AUTOINCREMENT, name TEXT NOT NULL UNIQUE,
price REAL NOT NULL, quantity INTEGER NOT NULL`. -/
structure Product where
  id : Nat
  name : String
  price : Rat
  quantity : Int
  deriving Repr, DecidableEq

/-- A row of the `sales` table:
`id INTEGER PRIMARY KEY AUTOINCREMENT, product_id INTEGER,
quantity_sold INTEGER, total_price REAL, date TEXT`. -/
structure Sale where
  id : Nat
  product_id : Nat
  quantity_sold : Int
  total_price : Rat
  date : Nat
  deriving Repr, DecidableEq

/-- The persisted state: the two tables plus the autoincrement counters. -/
structure DB where
  products : List Product
  sales : List Sale
  nextProductId : Nat
  nextSaleId : Nat
  deriving Repr, DecidableEq

/-- The state produced by `create_database` on a fresh file: both tables
empty, autoincrement counters starting at 1 (SQLite rowids start at 1). -/
def DB.empty : DB := ⟨[], [], 1, 1⟩

/-- `add_product(name, price, quantity)` of `main.py`: `INSERT INTO products`;
the `UNIQUE` constraint on `name` makes the insert fail with
`IntegrityError` exactly when the name is already present, and the function
returns the flag/message pair of the Python code. -/
def add_product (db : DB) (name : String) (price : Rat) (quantity : Int) :
    DB × Bool × String :=
  if db.products.any (fun p => p.name == name) then
    (db, false, "Product name already exists!")
  else
    ({ db with
        products := db.products ++ [⟨db.nextProductId, name, price, quantity⟩],
        nextProductId := db.nextProductId + 1 },
      true, "Product added successfully.")

/-- `delete_product(product_id)` of `main.py`:
`DELETE FROM products WHERE id = ?`.  It always succeeds and returns
nothing; the `sales` table is untouched (no cascade). -/
def delete_product (db : DB) (product_id : Nat) : DB :=
  { db with products := db.products.filter (fun p => p.id != product_id) }

/-- `get_all_products()` of `main.py`:
`SELECT id, name, price, quantity FROM products`. -/
def get_all_products (db : DB) : List Product := db.products

/-- `update_product_quantity(product_id, new_quantity)` of `main.py`:
`UPDATE products SET quantity = ? WHERE id = ?` — an unconditional
overwrite with no bounds checking. -/
def update_product_quantity (db : DB) (product_id : Nat) (new_quantity : Int) :
    DB :=
  { db with
      products := db.products.map (fun p =>
        if p.id == product_id then { p with quantity := new_quantity } else p) }

/-- The typed outcome of `process_sale`: `.notFound` models
`(False, 'Product not found.')`, `.insufficientStock` models
`(False, 'Insufficient stock.')`, and `.ok total` models
`(True, 'Sale processed! Total: $<total>')`. -/
inductive SaleResult where
  | ok (total : Rat)
  | notFound
  | insufficientStock
  deriving Repr, DecidableEq

/-- `process_sale(product_id, quantity_sold)` of `main.py`:
look up `price, quantity` of the product; fail if absent; fail if
`current_quantity < quantity_sold`; otherwise compute
`total_price = price * quantity_sold`, decrement the product's quantity,
and insert one `sales` row dated `DATE("now")` (the `today` argument). -/
def process_sale (db : DB) (product_id : Nat) (quantity_sold : Int)
    (today : Nat) : DB × SaleResult :=
  match db.products.find? (fun p => p.id == product_id) with
  | none => (db, .notFound)
  | some p =>
    if p.quantity < quantity_sold then
      (db, .insufficientStock)
    else
      let total_price := p.price * (quantity_sold : Rat)
      ({ db with
          products := db.products.map (fun x =>
            if x.id == product_id then
              { x with quantity := x.quantity - quantity_sold }
            else x),
          sales := db.sales ++
            [⟨db.nextSaleId, product_id, quantity_sold, total_price, today⟩],
          nextSaleId := db.nextSaleId + 1 },
        .ok total_price)

/-- One row of the report produced by `get_all_sales`:
`s.id, p.name, s.quantity_sold, s.total_price, s.date`. -/
structure SaleView where
  sale_id : Nat
  product_name : String
  quantity_sold : Int
  total_price : Rat
  date : Nat
  deriving Repr, DecidableEq

/-- The inner join `FROM sales s JOIN products p ON s.product_id = p.id`
of `get_all_sales`: a sale row joins with the product row carrying its
`product_id`, and a sale whose product no longer exists produces no row. -/
def joinSales (db : DB) : List SaleView :=
  db.sales.filterMap (fun s =>
    (db.products.find? (fun p => p.id == s.product_id)).map (fun p =>
      ⟨s.id, p.name, s.quantity_sold, s.total_price, s.date⟩))

/-- `get_all_sales()` of `main.py`: the join above followed by
`ORDER BY s.date DESC`. -/
def get_all_sales (db : DB) : List SaleView :=
  (joinSales db).insertionSort (fun a b => b.date ≤ a.date)

/-- Well-formedness used to say "a product present in the store": product
ids are pairwise distinct.  This holds in every state reachable through
the operations, because ids are drawn from the autoincrement counter
(`id INTEGER PRIMARY KEY`). -/
abbrev UniqueIds (db : DB) : Prop :=
  db.products.Pairwise (fun a b => a.id ≠ b.id)

/-- Non-negativity of the whole catalog's stock, the invariant of §3 of
the spec. -/
abbrev NonNegStock (db : DB) : Prop :=
  ∀ p ∈ db.products, 0 ≤ p.quantity

/-! ## Helper lemmas about keyed lookup -/

/-- In a list with pairwise-distinct ids, `find?` on an id returns exactly
the member carrying that id. -/
theorem find?_eq_some_unique {l : List Product}
    (hu : l.Pairwise (fun a b => a.id ≠ b.id)) (pid : Nat) (p : Product)
    (hp : p ∈ l) (hid : p.id = pid) :
    l.find? (fun x => x.id == pid) = some p := by
  induction l with
  | nil => cases hp
  | cons a t ih =>
    rcases List.mem_cons.mp hp with rfl | hpt
    · rw [List.find?_cons_of_pos _ (by simp [hid])]
    · have ha : a.id ≠ p.id := (List.pairwise_cons.mp hu).1 p hpt
      rw [List.find?_cons_of_neg _ (by simp [hid ▸ ha])]
      exact ih (List.pairwise_cons.mp hu).2 hpt

/-- In a list with pairwise-distinct ids, two members with the same id are
equal. -/
theorem eq_of_mem_of_id_eq {l : List Product}
    (hu : l.Pairwise (fun a b => a.id ≠ b.id)) {x y : Product}
    (hx : x ∈ l) (hy : y ∈ l) (h : x.id = y.id) : x = y := by
  induction l with
  | nil => cases hx
  | cons a t ih =>
    rcases List.mem_cons.mp hx with rfl | hxt
    · rcases List.mem_cons.mp hy with rfl | hyt
      · rfl
      · exact absurd h ((List.pairwise_cons.mp hu).1 y hyt)
    · rcases List.mem_cons.mp hy with rfl | hyt
      · exact absurd h.symm ((List.pairwise_cons.mp hu).1 x hxt)
      · exact ih (List.pairwise_cons.mp hu).2 hxt hyt

/-- `find?` on an id commutes with mapping an id-preserving function. -/
theorem find?_map_keepId (f : Product → Product)
    (hf : ∀ x, (f x).id = x.id) (pid : Nat) (l : List Product) :
    (l.map f).find? (fun x => x.id == pid)
      = (l.find? (fun x => x.id == pid)).map f := by
  induction l with
  | nil => rfl
  | cons a t ih =>
    by_cases h : a.id = pid
    · rw [List.map_cons, List.find?_cons_of_pos _ (by simp [hf, h]),
        List.find?_cons_of_pos _ (by simp [h])]
      rfl
    · rw [List.map_cons, List.find?_cons_of_neg _ (by simp [hf, h]),
        List.find?_cons_of_neg _ (by simp [h]), ih]

/-- The successful branch of `process_sale`, shared by the claims about a
passing stock guard: when the product is present and `q ≤ quantity`, the
whole resulting state is the guarded read-modify-write of the source. -/
theorem process_sale_ok (db : DB) (p : Product) (q : Int) (d : Nat)
    (hu : UniqueIds db) (hp : p ∈ db.products) (hq : q ≤ p.quantity) :
    process_sale db p.id q d =
      ({ db with
          products := db.products.map (fun x =>
            if x.id == p.id then { x with quantity := x.quantity - q } else x),
          sales := db.sales ++
            [⟨db.nextSaleId, p.id, q, p.price * (q : Rat), d⟩],
          nextSaleId := db.nextSaleId + 1 },
        .ok (p.price * (q : Rat))) := by
  have hfind : db.products.find? (fun x => x.id == p.id) = some p :=
    find?_eq_some_unique hu p.id p hp rfl
  simp only [process_sale, hfind]
  rw [if_neg (not_lt.mpr hq)]

/-! ## The claims -/

/-- C1: for every product `p` present in the store and every quantity `q`
with `0 < q ≤ p.quantity`, `process_sale p.id q` succeeds returning the
total `p.price * q` computed from the price read before the update,
decreases `p`'s quantity-on-hand by exactly `q` while leaving every other
product untouched, and appends exactly one sale row with that total, so
the sales row count grows by 1. -/
theorem C1_sell_success (db : DB) (p : Product) (q : Int) (d : Nat)
    (hu : UniqueIds db) (hp : p ∈ db.products) (hq0 : 0 < q)
    (hq : q ≤ p.quantity) :
    (process_sale db p.id q d).2 = .ok (p.price * (q : Rat)) ∧
    (process_sale db p.id q d).1.products.find? (fun x => x.id == p.id)
      = some { p with quantity := p.quantity - q } ∧
    (∀ x ∈ db.products, x.id ≠ p.id →
      x ∈ (process_sale db p.id q d).1.products) ∧
    (process_sale db p.id q d).1.products.length = db.products.length ∧
    (process_sale db p.id q d).1.sales
      = db.sales ++ [⟨db.nextSaleId, p.id, q, p.price * (q : Rat), d⟩] ∧
    (process_sale db p.id q d).1.sales.length = db.sales.length + 1 := by
  have h := process_sale_ok db p q d hu hp hq
  rw [h]
  have hf : ∀ x : Product,
      ((if x.id == p.id then { x with quantity := x.quantity - q } else x) :
        Product).id = x.id := by
    intro x
    by_cases hx : (x.id == p.id) = true <;> simp [hx]
  refine ⟨rfl, ?_, ?_, by simp, rfl, by simp⟩
  · rw [find?_map_keepId _ hf p.id db.products,
      find?_eq_some_unique hu p.id p hp rfl]
    simp
  · intro x hx hne
    have hfx : (if (x.id == p.id) = true then
        { x with quantity := x.quantity - q } else x) = x := by
      simp [hne]
    exact hfx ▸ List.mem_map_of_mem _ hx

/-- Witness for C1 at the spec's own scenario: one product `Pen` at price
3/2 with 100 on hand; selling 10 yields total 15 and one sale row. -/
theorem C1_sell_success_witness :
    (process_sale ⟨[⟨1, "Pen", 3/2, 100⟩], [], 2, 1⟩ 1 10 5).2
      = SaleResult.ok 15 ∧
    (process_sale ⟨[⟨1, "Pen", 3/2, 100⟩], [], 2, 1⟩ 1 10 5).1.sales.length
      = 1 := by
  have h := C1_sell_success ⟨[⟨1, "Pen", 3/2, 100⟩], [], 2, 1⟩
    ⟨1, "Pen", 3/2, 100⟩ 10 5 (by decide) (List.mem_cons_self _ _) (by decide)
    (by decide)
  exact ⟨h.1.trans (by norm_num), h.2.2.2.2.2⟩

/-- C2: for every product `p` present in the store and every quantity
`q > p.quantity`, `process_sale p.id q` fails with `insufficientStock` and
the whole state — in particular `p`'s quantity-on-hand and the sales
table — is unchanged. -/
theorem C2_sell_insufficient (db : DB) (p : Product) (q : Int) (d : Nat)
    (hu : UniqueIds db) (hp : p ∈ db.products) (hq : p.quantity < q) :
    process_sale db p.id q d = (db, .insufficientStock) := by
  have hfind := find?_eq_some_unique hu p.id p hp rfl
  simp only [process_sale, hfind]
  rw [if_pos hq]

/-- Witness for C2 at the spec's own scenario: 5 on hand, selling 10. -/
theorem C2_sell_insufficient_witness :
    process_sale ⟨[⟨1, "Pen", 3/2, 5⟩], [], 2, 1⟩ 1 10 7
      = (⟨[⟨1, "Pen", 3/2, 5⟩], [], 2, 1⟩, SaleResult.insufficientStock) :=
  C2_sell_insufficient ⟨[⟨1, "Pen", 3/2, 5⟩], [], 2, 1⟩ ⟨1, "Pen", 3/2, 5⟩
    10 7 (by decide) (List.mem_cons_self _ _) (by decide)

/-- C3: for every id carried by no product in the store, `process_sale`
fails with `notFound` and the whole state is unchanged. -/
theorem C3_sell_not_found (db : DB) (pid : Nat) (q : Int) (d : Nat)
    (h : ∀ p ∈ db.products, p.id ≠ pid) :
    process_sale db pid q d = (db, .notFound) := by
  have hfind : db.products.find? (fun x => x.id == pid) = none := by
    rw [List.find?_eq_none]
    intro x hx
    simpa using h x hx
  simp only [process_sale, hfind]

/-- Witness for C3: selling from the empty store. -/
theorem C3_sell_not_found_witness :
    process_sale DB.empty 1 5 7 = (DB.empty, SaleResult.notFound) :=
  C3_sell_not_found DB.empty 1 5 7 (by decide)

/-- C5: adding a product whose name is already in the catalog fails with
the duplicate-name error and leaves the whole state — in particular the
catalog rows and their count — unchanged. -/
theorem C5_add_duplicate (db : DB) (n : String) (price : Rat) (q : Int)
    (h : ∃ p ∈ db.products, p.name = n) :
    add_product db n price q = (db, false, "Product name already exists!") := by
  obtain ⟨p, hp, hn⟩ := h
  have ha : db.products.any (fun x => x.name == n) = true :=
    List.any_eq_true.mpr ⟨p, hp, by simpa using hn⟩
  simp [add_product, ha]

/-- Witness for C5: re-adding `Pen`. -/
theorem C5_add_duplicate_witness :
    add_product ⟨[⟨1, "Pen", 3/2, 5⟩], [], 2, 1⟩ "Pen" 2 3
      = (⟨[⟨1, "Pen", 3/2, 5⟩], [], 2, 1⟩, false,
          "Product name already exists!") :=
  C5_add_duplicate ⟨[⟨1, "Pen", 3/2, 5⟩], [], 2, 1⟩ "Pen" 2 3
    ⟨⟨1, "Pen", 3/2, 5⟩, List.mem_cons_self _ _, rfl⟩

/-- C8: `delete_product` always succeeds: it returns a state (never an
error), on an absent id it is the identity (idempotent no-op), it keeps
exactly the products whose id differs from the argument, and it never
touches the sales table (no cascade). -/
theorem C8_delete_idempotent (db : DB) (pid : Nat) :
    (delete_product db pid).sales = db.sales ∧
    ((∀ p ∈ db.products, p.id ≠ pid) → delete_product db pid = db) ∧
    (∀ x : Product,
      x ∈ (delete_product db pid).products ↔ x ∈ db.products ∧ x.id ≠ pid) := by
  refine ⟨rfl, ?_, ?_⟩
  · intro h
    have hfil : db.products.filter (fun p => p.id != pid) = db.products := by
      rw [List.filter_eq_self]
      intro a ha
      simpa using h a ha
    simp [delete_product, hfil]
  · intro x
    simp [delete_product, List.mem_filter]

/-- Witness for C8: deleting an absent id is a no-op; deleting a present
id leaves the sales table alone. -/
theorem C8_delete_idempotent_witness :
    delete_product ⟨[⟨1, "Pen", 2, 5⟩], [], 2, 1⟩ 99
      = ⟨[⟨1, "Pen", 2, 5⟩], [], 2, 1⟩ ∧
    (delete_product ⟨[⟨1, "Pen", 2, 5⟩], [⟨1, 1, 2, 4, 7⟩], 2, 2⟩ 1).sales
      = [⟨1, 1, 2, 4, 7⟩] :=
  ⟨(C8_delete_idempotent ⟨[⟨1, "Pen", 2, 5⟩], [], 2, 1⟩ 99).2.1 (by decide),
    (C8_delete_idempotent ⟨[⟨1, "Pen", 2, 5⟩], [⟨1, 1, 2, 4, 7⟩], 2, 2⟩ 1).1⟩

/-- C9: the sales ledger is append-only.  `add_product`,
`delete_product` and `update_product_quantity` leave the sales table
exactly as it was, and `process_sale` either leaves it unchanged or
appends exactly one row whose stored `total_price` is the price of the
product looked up in that same call times the quantity sold; no operation
updates or deletes an existing row, so later catalog changes cannot alter
past totals. -/
theorem C9_sales_append_only (db : DB) (n : String) (pr : Rat) (q qs : Int)
    (pid : Nat) (d : Nat) :
    (add_product db n pr q).1.sales = db.sales ∧
    (delete_product db pid).sales = db.sales ∧
    (update_product_quantity db pid q).sales = db.sales ∧
    ((process_sale db pid qs d).1.sales = db.sales ∨
      ∃ p, db.products.find? (fun x => x.id == pid) = some p ∧
        (process_sale db pid qs d).1.sales
          = db.sales ++ [⟨db.nextSaleId, pid, qs, p.price * (qs : Rat), d⟩]) := by
  refine ⟨?_, rfl, rfl, ?_⟩
  · unfold add_product
    by_cases h : db.products.any (fun p => p.name == n) = true <;> simp [h]
  · rcases hfo : db.products.find? (fun x => x.id == pid) with _ | p
    · left
      simp only [process_sale, hfo]
    · by_cases hq : p.quantity < qs
      · left
        simp only [process_sale, hfo, if_pos hq]
      · right
        refine ⟨p, hfo, ?_⟩
        simp only [process_sale, hfo, if_neg hq]

/-- C10: the store layer never rejects a non-positive quantity: for a
product of the data model (non-negative stock) the guard
`current_quantity < quantity_sold` passes for every `q ≤ 0`, so the sale
succeeds, the on-hand quantity becomes `quantity - q` (a strict increase
when `q < 0`), and a sale row with the zero-or-negative total
`price * q` is inserted. -/
theorem C10_sell_nonpositive (db : DB) (p : Product) (q : Int) (d : Nat)
    (hu : UniqueIds db) (hnn : NonNegStock db) (hp : p ∈ db.products)
    (hq : q ≤ 0) :
    (process_sale db p.id q d).2 = .ok (p.price * (q : Rat)) ∧
    (process_sale db p.id q d).1.products.find? (fun x => x.id == p.id)
      = some { p with quantity := p.quantity - q } ∧
    (process_sale db p.id q d).1.sales
      = db.sales ++ [⟨db.nextSaleId, p.id, q, p.price * (q : Rat), d⟩] := by
  have hq' : q ≤ p.quantity := le_trans hq (hnn p hp)
  have h := process_sale_ok db p q d hu hp hq'
  rw [h]
  have hf : ∀ x : Product,
      ((if x.id == p.id then { x with quantity := x.quantity - q } else x) :
        Product).id = x.id := by
    intro x
    by_cases hx : (x.id == p.id) = true <;> simp [hx]
  refine ⟨rfl, ?_, rfl⟩
  rw [find?_map_keepId _ hf p.id db.products,
    find?_eq_some_unique hu p.id p hp rfl]
  simp

/-- Witness for C10: selling `-3` units of a product with 5 on hand
"succeeds", raises the stock to 8 and records a total of `-6`. -/
theorem C10_sell_nonpositive_witness :
    (process_sale ⟨[⟨1, "Pen", 2, 5⟩], [], 2, 1⟩ 1 (-3) 9).2
      = SaleResult.ok (-6) ∧
    (process_sale ⟨[⟨1, "Pen", 2, 5⟩], [], 2, 1⟩ 1 (-3) 9).1.products.find?
      (fun x => x.id == 1) = some ⟨1, "Pen", 2, 8⟩ := by
  have h := C10_sell_nonpositive ⟨[⟨1, "Pen", 2, 5⟩], [], 2, 1⟩
    ⟨1, "Pen", 2, 5⟩ (-3) 9 (by decide) (by decide) (List.mem_cons_self _ _)
    (by decide)
  exact ⟨h.1.trans (by norm_num), h.2.1.trans (by norm_num)⟩

/-- Counterexample to C4 as stated: `update_product_quantity` is an
unconditional overwrite and `add_product` persists any quantity, so both
"succeed" while driving a quantity-on-hand negative — non-negativity is
not preserved by every operation of the core. -/
theorem C4_counterexample :
    NonNegStock ⟨[⟨1, "Pen", 2, 5⟩], [], 2, 1⟩ ∧
    ¬ NonNegStock (update_product_quantity ⟨[⟨1, "Pen", 2, 5⟩], [], 2, 1⟩
        1 (-1)) ∧
    ¬ NonNegStock (add_product ⟨[⟨1, "Pen", 2, 5⟩], [], 2, 1⟩ "Air" 2
        (-3)).1 := by
  exact ⟨by decide, by decide, by decide⟩

/-- C4 (amended): non-negativity of every quantity-on-hand is preserved by
`process_sale` (its stock guard makes the decremented quantity
non-negative) and by `delete_product`; it is not enforced by
`update_product_quantity` or `add_product`. -/
theorem C4_nonneg_sell_delete (db : DB) (pid : Nat) (q : Int) (d : Nat)
    (hu : UniqueIds db) (hnn : NonNegStock db) :
    NonNegStock (process_sale db pid q d).1 ∧
    NonNegStock (delete_product db pid) := by
  constructor
  · rcases hfo : db.products.find? (fun x => x.id == pid) with _ | p
    · simp only [process_sale, hfo]
      exact hnn
    · by_cases hq : p.quantity < q
      · simp only [process_sale, hfo, if_pos hq]
        exact hnn
      · simp only [process_sale, hfo, if_neg hq]
        intro x hx
        rcases List.mem_map.mp hx with ⟨y, hy, rfl⟩
        by_cases hyid : (y.id == pid) = true
        · have hpmem := List.mem_of_find?_eq_some hfo
          have hpid : p.id = pid := by simpa using List.find?_some hfo
          have hyp : y = p :=
            eq_of_mem_of_id_eq hu hy hpmem
              (by rw [hpid]; simpa using hyid)
          simp only [hyid, if_true]
          subst hyp
          simp only [not_lt] at hq
          omega
        · simp only [hyid]
          simp only [if_false, Bool.false_eq_true]
          exact hnn y hy
  · intro x hx
    exact hnn x (List.mem_of_mem_filter hx)

/-- Witness for C4 (amended): a sale and a delete from a non-negative
catalog keep every quantity non-negative. -/
theorem C4_nonneg_sell_delete_witness :
    NonNegStock (process_sale ⟨[⟨1, "Pen", 2, 5⟩], [], 2, 1⟩ 1 2 7).1 ∧
    NonNegStock (delete_product ⟨[⟨1, "Pen", 2, 5⟩], [], 2, 1⟩ 1) :=
  C4_nonneg_sell_delete ⟨[⟨1, "Pen", 2, 5⟩], [], 2, 1⟩ 1 2 7
    (by decide) (by decide)

/-- Counterexample to C6 as stated: a successful `add_product` returns
only the constant pair `(true, "Product added successfully.")`.  Two
successful calls that create rows with different identities (1 in the
empty store, 2 after another product) return identical values, so the
returned value is not — and cannot encode — the created identity. -/
theorem C6_counterexample :
    (add_product DB.empty "Pen" 2 5).2
      = (true, "Product added successfully.") ∧
    (add_product DB.empty "Pen" 2 5).1.products = [⟨1, "Pen", 2, 5⟩] ∧
    (add_product (add_product DB.empty "Ink" 3 7).1 "Pen" 2 5).2
      = (add_product DB.empty "Pen" 2 5).2 ∧
    (add_product (add_product DB.empty "Ink" 3 7).1 "Pen" 2 5).1.products
      = [⟨1, "Ink", 3, 7⟩, ⟨2, "Pen", 2, 5⟩] := by
  exact ⟨by decide, by decide, by decide, by decide⟩

/-- C6 (amended): adding a name not in the catalog always succeeds —
exactly one product row is appended, carrying the store's next
autoincrement identity — but the call returns only a success flag and a
fixed message, not the created identity. -/
theorem C6_add_fresh (db : DB) (n : String) (price : Rat) (q : Int)
    (h : ∀ p ∈ db.products, p.name ≠ n) :
    (add_product db n price q).2 = (true, "Product added successfully.") ∧
    (add_product db n price q).1.products
      = db.products ++ [⟨db.nextProductId, n, price, q⟩] ∧
    (add_product db n price q).1.nextProductId = db.nextProductId + 1 ∧
    (add_product db n price q).1.sales = db.sales := by
  have ha : db.products.any (fun x => x.name == n) = false := by
    rw [List.any_eq_false]
    intro x hx
    simpa using h x hx
  simp [add_product, ha]

/-- Witness for C6 (amended): adding `Ink` next to `Pen`. -/
theorem C6_add_fresh_witness :
    (add_product ⟨[⟨1, "Pen", 2, 5⟩], [], 2, 1⟩ "Ink" 3 7).1.products
      = [⟨1, "Pen", 2, 5⟩, ⟨2, "Ink", 3, 7⟩] ∧
    (add_product ⟨[⟨1, "Pen", 2, 5⟩], [], 2, 1⟩ "Ink" 3 7).2
      = (true, "Product added successfully.") := by
  have h := C6_add_fresh ⟨[⟨1, "Pen", 2, 5⟩], [], 2, 1⟩ "Ink" 3 7 (by decide)
  exact ⟨h.2.1, h.1⟩

/-- Counterexample to C7 as stated: the report's inner join drops sale
rows whose product was deleted.  In the reachable state
add `Pen` → sell 10 → delete the product, the ledger holds one sale row
but `get_all_sales` returns the empty list, not "exactly the set of all
recorded sale rows". -/
theorem C7_counterexample :
    get_all_sales
        (delete_product
          (process_sale (add_product DB.empty "Pen" 2 100).1 1 10 5).1 1)
      = [] ∧
    (delete_product
        (process_sale (add_product DB.empty "Pen" 2 100).1 1 10 5).1
        1).sales ≠ [] :=
  ⟨rfl, List.cons_ne_nil _ _⟩

/-- C7 (amended): `get_all_sales` produces exactly the recorded sale rows
whose product still exists in the catalog — each joined with that
product's name — ordered newest first (non-increasing date); sales
referencing a deleted product are omitted by the inner join. -/
theorem C7_sales_report (db : DB) (hu : UniqueIds db) :
    (get_all_sales db).Pairwise (fun a b => b.date ≤ a.date) ∧
    ∀ v : SaleView, v ∈ get_all_sales db ↔
      ∃ s ∈ db.sales, ∃ p ∈ db.products, p.id = s.product_id ∧
        v = ⟨s.id, p.name, s.quantity_sold, s.total_price, s.date⟩ := by
  constructor
  · haveI h1 : IsTotal SaleView (fun a b => b.date ≤ a.date) :=
      ⟨fun a b => le_total b.date a.date⟩
    haveI h2 : IsTrans SaleView (fun a b => b.date ≤ a.date) :=
      ⟨fun a b c hab hbc => le_trans hbc hab⟩
    exact List.sorted_insertionSort _ _
  · intro v
    rw [show (v ∈ get_all_sales db) ↔ v ∈ joinSales db from
      (List.perm_insertionSort _ _).mem_iff]
    unfold joinSales
    rw [List.mem_filterMap]
    constructor
    · rintro ⟨s, hs, hmap⟩
      rcases Option.map_eq_some'.mp hmap with ⟨p, hfind, rfl⟩
      exact ⟨s, hs, p, List.mem_of_find?_eq_some hfind,
        by simpa using List.find?_some hfind, rfl⟩
    · rintro ⟨s, hs, p, hp, hpid, rfl⟩
      refine ⟨s, hs, ?_⟩
      rw [find?_eq_some_unique hu s.product_id p hp hpid]
      rfl

/-- Witness for C7 (amended): with two sales on different dates the
report is sorted newest first. -/
theorem C7_sales_report_witness :
    (get_all_sales ⟨[⟨1, "Pen", 2, 100⟩],
        [⟨1, 1, 10, 20, 5⟩, ⟨2, 1, 7, 14, 9⟩], 2, 3⟩).Pairwise
      (fun a b => b.date ≤ a.date) :=
  (C7_sales_report ⟨[⟨1, "Pen", 2, 100⟩],
    [⟨1, 1, 10, 20, 5⟩, ⟨2, 1, 7, 14, 9⟩], 2, 3⟩ (by decide)).1
